import Mathlib

/-!
Shallow embedding of the Mars-Scheduler schedule-generation engine
(src/backend/app/services/scheduling_engine.py, class SchedulingEngine).

Conventions of the embedding:
* Python floats are modelled as rationals.
* Python `time` values are modelled as minutes since midnight (strptime with
  the formats used here always yields seconds = 0, so minute granularity is exact).
* A Python dict with `.get(key, default)` access is modelled either as a total
  function (availableSections: absent key and key mapping to [] are
  observationally identical, both give []) or as a structure of Option fields
  with getD defaults (preferences, professor records).
* Python's insertion-ordered dict used for grouping sections by day is
  modelled as an association list that appends new keys at the end.
* `list.sort(key=..., reverse=True)` and `sorted(..., key=...)` are stable;
  they are modelled by stable insertion sorts.
* `allSchedules[:maxSchedules]` uses Python slice semantics, including the
  behaviour at negative bounds; it is modelled by pySlice below.
-/

/-- Professor rating record attached to a section: the engine reads
`aggregatedScore` and `planetTerpAvgGPA` with `.get(..., 3.0)` defaults. -/
structure Professor where
  aggregatedScore : Option ℚ
  planetTerpAvgGPA : Option ℚ
deriving DecidableEq

/-- One offered meeting pattern of a course, as the engine consumes it:
`courseCode`, a list of day symbols, optional time strings, and an optional
professor record (`section.get("professor", {})`). -/
structure Section where
  courseCode : String
  days : List String
  startTime : Option String
  endTime : Option String
  professor : Option Professor
deriving DecidableEq

/-- A generated schedule: the dict `{"sections": ..., "score": ...}` built in
`generateSchedules`. -/
structure Schedule where
  sections : List Section
  score : ℚ
deriving DecidableEq

/-- User preferences dict; every field is read with `.get(key, default)`,
so each is an Option with the default applied at the use site. -/
structure Preferences where
  prioritizeProfessorRating : Option Bool
  prioritizeEasyGPA : Option Bool
  preferMorning : Option Bool
  preferAfternoon : Option Bool
  preferEvening : Option Bool
  preferredDays : Option (List String)
  avoidBackToBack : Option Bool

/-- Contiguous two-character substring test: models Python `"xy" in s`
for the two-character needles "am" and "pm" used by `_parseTime`. -/
def containsStr2 (x y : Char) : List Char → Bool
  | c :: d :: rest => (c = x && d = y) || containsStr2 x y (d :: rest)
  | _ => false

/-- Split a character list on the colon character, as strptime's
"%H:%M" / "%I:%M%p" formats do around the literal colon. -/
def splitOnColon : List Char → List (List Char)
  | [] => [[]]
  | c :: rest =>
    let r := splitOnColon rest
    if c = ':' then [] :: r
    else
      match r with
      | [] => [[c]]
      | h :: t => (c :: h) :: t

/-- Numeric field of a strptime directive: one or two decimal digits. -/
def digitsVal (cs : List Char) : Option Nat :=
  if cs.length = 0 || 2 < cs.length || !(cs.all Char.isDigit) then none
  else some (cs.foldl (fun n c => n * 10 + (c.toNat - 48)) 0)

/-- A strptime numeric field constrained to [lo, hi] (e.g. %H is 0..23). -/
def timeField (cs : List Char) (lo hi : Nat) : Option Nat :=
  match digitsVal cs with
  | none => none
  | some n => if lo ≤ n ∧ n ≤ hi then some n else none

/-- Models `datetime.strptime(timeStr, "%H:%M").time()` on an already
lowercased, space-free string, returning minutes since midnight. -/
def parse24 (cs : List Char) : Option Nat :=
  match splitOnColon cs with
  | [h, m] =>
    match timeField h 0 23, timeField m 0 59 with
    | some hn, some mn => some (hn * 60 + mn)
    | _, _ => none
  | _ => none

/-- Models `datetime.strptime(timeStr, "%I:%M%p").time()` on an already
lowercased, space-free string: a 1..12 hour, a minute, then the literal
suffix "am" or "pm"; 12am maps to hour 0 and 12pm to hour 12. -/
def parse12 (cs : List Char) : Option Nat :=
  match cs.reverse with
  | m :: p :: revCore =>
    if m = 'm' && (p = 'a' || p = 'p') then
      match splitOnColon revCore.reverse with
      | [h, mm] =>
        match timeField h 1 12, timeField mm 0 59 with
        | some hn, some mn =>
          some (((hn % 12) + (if p = 'p' then 12 else 0)) * 60 + mn)
        | _, _ => none
      | _ => none
    else none
  | _ => none

/-- Models `SchedulingEngine._parseTime`: None/empty input gives None; the
string is lowercased and spaces are removed; if it contains "am" or "pm" it
is parsed with "%I:%M%p", otherwise with "%H:%M"; any parse failure
(the broad `except`) gives None. Result is minutes since midnight. -/
def parseTime (timeStr : Option String) : Option Nat :=
  match timeStr with
  | none => none
  | some s =>
    if s = "" then none
    else
      let cs := (s.toList.map Char.toLower).filter (fun c => c ≠ ' ')
      if containsStr2 'a' 'm' cs || containsStr2 'p' 'm' cs then parse12 cs
      else parse24 cs

/-- Nonempty intersection of the two sections' day sets:
`set(days1).intersection(set(days2))` being truthy. -/
def daysIntersect (s1 s2 : Section) : Bool :=
  s1.days.any (fun d => s2.days.contains d)

/-- Models `SchedulingEngine._hasTimeConflict`: no shared day means no
conflict; any of the four times missing/unparseable means no conflict;
otherwise conflict iff not (end1 <= start2 or end2 <= start1). -/
def hasTimeConflict (s1 s2 : Section) : Bool :=
  if !(daysIntersect s1 s2) then false
  else
    match parseTime s1.startTime, parseTime s1.endTime,
          parseTime s2.startTime, parseTime s2.endTime with
    | some start1, some end1, some start2, some end2 =>
      !(decide (end1 ≤ start2) || decide (end2 ≤ start1))
    | _, _, _, _ => false

/-- Models `SchedulingEngine._hasValidTimeConflicts`: true iff no ordered
pair (i, j) with i < j conflicts. -/
def hasValidTimeConflicts : List Section → Bool
  | [] => true
  | s :: rest => rest.all (fun t => !(hasTimeConflict s t)) && hasValidTimeConflicts rest

/-- `section.get("professor", {}).get("aggregatedScore", 3.0)`. -/
def profRating (s : Section) : ℚ :=
  match s.professor with
  | none => 3
  | some p => p.aggregatedScore.getD 3

/-- `section.get("professor", {}).get("planetTerpAvgGPA", 3.0)`. -/
def profGPA (s : Section) : ℚ :=
  match s.professor with
  | none => 3
  | some p => p.planetTerpAvgGPA.getD 3

/-- Models `_calculateAverageProfessorRating`:
`sum(ratings) / len(ratings) if ratings else 3.0`. -/
def calculateAverageProfessorRating (sections : List Section) : ℚ :=
  if sections.isEmpty then 3
  else (sections.map profRating).sum / sections.length

/-- Models `_calculateAverageGPA`:
`sum(gpas) / len(gpas) if gpas else 3.0`. -/
def calculateAverageGPA (sections : List Section) : ℚ :=
  if sections.isEmpty then 3
  else (sections.map profGPA).sum / sections.length

/-- Per-section contribution of the `_calculateTimePreferenceScore` loop:
skip sections without a parseable start time, else award 1.0 by the
if/elif chain over the start hour. -/
def timeContrib (prefs : Preferences) (s : Section) : ℚ :=
  match parseTime s.startTime with
  | none => 0
  | some t =>
    let hour := t / 60
    if prefs.preferMorning.getD false ∧ 8 ≤ hour ∧ hour < 12 then 1
    else if prefs.preferAfternoon.getD false ∧ 12 ≤ hour ∧ hour < 17 then 1
    else if prefs.preferEvening.getD false ∧ 17 ≤ hour ∧ hour < 21 then 1
    else 0

/-- Models `_calculateTimePreferenceScore`:
accumulated contributions divided by the section count, 0 when empty. -/
def calculateTimePreferenceScore (sections : List Section) (prefs : Preferences) : ℚ :=
  if sections.isEmpty then 0
  else (sections.map (timeContrib prefs)).sum / sections.length

/-- Per-section contribution of the `_calculateDayPreferenceScore` loop:
1.0 when the section's day set intersects the preferred set. -/
def dayContrib (preferredDays : List String) (s : Section) : ℚ :=
  if s.days.any (fun d => preferredDays.contains d) then 1 else 0

/-- Models `_calculateDayPreferenceScore`: returns 1.0 when no preferred
days are given; otherwise the accumulated contributions divided by the
section count, 0 when the candidate is empty. -/
def calculateDayPreferenceScore (sections : List Section) (prefs : Preferences) : ℚ :=
  let preferredDays := prefs.preferredDays.getD []
  if preferredDays.isEmpty then 1
  else if sections.isEmpty then 0
  else (sections.map (dayContrib preferredDays)).sum / sections.length

/-- One update of the insertion-ordered `daySchedules` dict:
append the section to the day's list, creating the key at the end if new. -/
def addToDay (m : List (String × List Section)) (day : String) (s : Section) :
    List (String × List Section) :=
  match m with
  | [] => [(day, [s])]
  | (d, l) :: rest =>
    if d = day then (d, l ++ [s]) :: rest else (d, l) :: addToDay rest day s

/-- The `daySchedules` grouping loop shared by `_calculateBackToBackPenalty`
and `_calculateGapScore`. -/
def groupByDay (sections : List Section) : List (String × List Section) :=
  sections.foldl (fun m s => s.days.foldl (fun m2 d => addToDay m2 d s) m) []

/-- Sort key of the per-day sorts: `_parseTime(. ) or time.min`
(time objects are always truthy, so this is a None fallback to midnight). -/
def startKey (s : Section) : Nat := (parseTime s.startTime).getD 0

/-- Stable insertion step for Python's stable ascending `sorted`. -/
def insertByStart (x : Section) : List Section → List Section
  | [] => [x]
  | y :: ys => if startKey x ≤ startKey y then x :: y :: ys else y :: insertByStart x ys

/-- Models `sorted(daySections, key=lambda s: _parseTime(...) or time.min)`. -/
def sortByStart (l : List Section) : List Section := l.foldr insertByStart []

/-- Models `(datetime.combine(today, start2) - datetime.combine(today, end1))
.seconds / 60`: timedelta normalisation keeps `.seconds` in [0, 86400), and
the quotient is exact because both operands are whole minutes. -/
def gapMins (end1 start2 : Nat) : Int :=
  (((start2 : Int) * 60 - (end1 : Int) * 60) % 86400) / 60

/-- Contribution of one adjacent pair in `_calculateBackToBackPenalty`:
requires both times parseable (the `if endTime1 and startTime2` None check),
then 1.0 when the gap is under 15 minutes. -/
def b2bPairContrib (a b : Section) : ℚ :=
  match parseTime a.endTime, parseTime b.startTime with
  | some e1, some s2 => if gapMins e1 s2 < 15 then 1 else 0
  | _, _ => 0

/-- Contribution of one adjacent pair in `_calculateGapScore`: +1 for a gap
in [30, 90], -0.5 for a gap over 180 minutes, both only when the two times
parse. -/
def gapPairContrib (a b : Section) : ℚ :=
  match parseTime a.endTime, parseTime b.startTime with
  | some e1, some s2 =>
    let g := gapMins e1 s2
    if 30 ≤ g ∧ g ≤ 90 then 1 else if 180 < g then -(1 / 2 : ℚ) else 0
  | _, _ => 0

/-- Sum of a function over the consecutive pairs of a list
(`for i in range(len(sorted) - 1)` loops). -/
def pairSum (f : α → α → ℚ) (l : List α) : ℚ :=
  ((l.zip l.tail).map fun p => f p.1 p.2).sum

/-- Models `_calculateBackToBackPenalty`: group by day, sort each day's
sections by start time, and accumulate the under-15-minute-gap pairs. -/
def calculateBackToBackPenalty (sections : List Section) : ℚ :=
  ((groupByDay sections).map fun g => pairSum b2bPairContrib (sortByStart g.2)).sum

/-- Models `_calculateGapScore`: group by day, sort each day's sections by
start time, and accumulate the gap-quality contributions. -/
def calculateGapScore (sections : List Section) : ℚ :=
  ((groupByDay sections).map fun g => pairSum gapPairContrib (sortByStart g.2)).sum

/-- Models `_calculateScheduleScore`: the weighted sum of the six
sub-scores, with each optional term gated by its preference flag. -/
def calculateScheduleScore (sections : List Section) (prefs : Preferences) : ℚ :=
  (if prefs.prioritizeProfessorRating.getD true then
    calculateAverageProfessorRating sections * 20 else 0)
  + (if prefs.prioritizeEasyGPA.getD false then
    calculateAverageGPA sections * 15 else 0)
  + calculateTimePreferenceScore sections prefs * 25
  + calculateDayPreferenceScore sections prefs * 10
  - (if prefs.avoidBackToBack.getD false then
    calculateBackToBackPenalty sections * 10 else 0)
  + calculateGapScore sections * 5

/-- Models `_generateCombinations`: the empty input yields one empty
combination, a single list yields singletons, and otherwise the first
course's sections are prepended (outer loop) to every combination of the
remaining courses (inner loop). -/
def generateCombinations : List (List Section) → List (List Section)
  | [] => [[]]
  | [l] => l.map fun s => [s]
  | l :: l2 :: rest =>
    l.flatMap fun s => (generateCombinations (l2 :: rest)).map fun r => s :: r

/-- Stable insertion step for Python's stable `sort(key=score, reverse=True)`:
an element moves before the first strictly smaller score, so equal scores
keep their original order. -/
def insertDesc (x : Schedule) : List Schedule → List Schedule
  | [] => [x]
  | y :: ys => if y.score ≤ x.score then x :: y :: ys else y :: insertDesc x ys

/-- Models `allSchedules.sort(key=lambda x: x["score"], reverse=True)`. -/
def sortSchedulesDesc (l : List Schedule) : List Schedule := l.foldr insertDesc []

/-- Python slice `l[:n]`, including the negative-bound semantics:
a negative n keeps all but the last |n| elements. -/
def pySlice (n : Int) (l : List α) : List α :=
  if 0 ≤ n then l.take n.toNat else l.take ((l.length : Int) + n).toNat

/-- Models `SchedulingEngine.generateSchedules`: build the per-course
section lists (`availableSections.get(course, [])`), fail closed when any
is empty (`if not all(sectionLists)`), otherwise score every conflict-free
combination, sort by score descending and slice to `maxSchedules`. -/
def generateSchedules (requiredCourses : List String)
    (availableSections : String → List Section)
    (preferences : Preferences) (maxSchedules : Int) : List Schedule :=
  let sectionLists := requiredCourses.map availableSections
  if sectionLists.all (fun l => !l.isEmpty) then
    let allSchedules :=
      ((generateCombinations sectionLists).filter hasValidTimeConflicts).map
        (fun combo => { sections := combo
                        score := calculateScheduleScore combo preferences })
    pySlice maxSchedules (sortSchedulesDesc allSchedules)
  else []

/-- The scored conflict-free candidates in generation order: the
`allSchedules` list of `generateSchedules` before sorting and slicing. -/
def scheduleCandidates (requiredCourses : List String)
    (availableSections : String → List Section)
    (preferences : Preferences) : List Schedule :=
  ((generateCombinations (requiredCourses.map availableSections)).filter
    hasValidTimeConflicts).map
    (fun combo => { sections := combo
                    score := calculateScheduleScore combo preferences })

/-- Projection of a section onto the fields the day-grouping scorers read
(days, start and end time). Used to state that the back-to-back and gap
scorers do not depend on any other field. -/
structure TimeData where
  days : List String
  startTime : Option String
  endTime : Option String
deriving DecidableEq

/-- The projection of a section onto its time data. -/
def timeProj (s : Section) : TimeData := ⟨s.days, s.startTime, s.endTime⟩

/-- addToDay transported along timeProj. -/
def addToDayT (m : List (String × List TimeData)) (day : String) (s : TimeData) :
    List (String × List TimeData) :=
  match m with
  | [] => [(day, [s])]
  | (d, l) :: rest =>
    if d = day then (d, l ++ [s]) :: rest else (d, l) :: addToDayT rest day s

/-- groupByDay transported along timeProj. -/
def groupByDayT (sections : List TimeData) : List (String × List TimeData) :=
  sections.foldl (fun m s => s.days.foldl (fun m2 d => addToDayT m2 d s) m) []

/-- startKey transported along timeProj. -/
def startKeyT (s : TimeData) : Nat := (parseTime s.startTime).getD 0

/-- insertByStart transported along timeProj. -/
def insertByStartT (x : TimeData) : List TimeData → List TimeData
  | [] => [x]
  | y :: ys => if startKeyT x ≤ startKeyT y then x :: y :: ys else y :: insertByStartT x ys

/-- sortByStart transported along timeProj. -/
def sortByStartT (l : List TimeData) : List TimeData := l.foldr insertByStartT []

/-- b2bPairContrib transported along timeProj. -/
def b2bPairContribT (a b : TimeData) : ℚ :=
  match parseTime a.endTime, parseTime b.startTime with
  | some e1, some s2 => if gapMins e1 s2 < 15 then 1 else 0
  | _, _ => 0

/-- gapPairContrib transported along timeProj. -/
def gapPairContribT (a b : TimeData) : ℚ :=
  match parseTime a.endTime, parseTime b.startTime with
  | some e1, some s2 =>
    let g := gapMins e1 s2
    if 30 ≤ g ∧ g ≤ 90 then 1 else if 180 < g then -(1 / 2 : ℚ) else 0
  | _, _ => 0

/-- calculateBackToBackPenalty transported along timeProj. -/
def calculateBackToBackPenaltyT (l : List TimeData) : ℚ :=
  ((groupByDayT l).map fun g => pairSum b2bPairContribT (sortByStartT g.2)).sum

/-- calculateGapScore transported along timeProj. -/
def calculateGapScoreT (l : List TimeData) : ℚ :=
  ((groupByDayT l).map fun g => pairSum gapPairContribT (sortByStartT g.2)).sum

/-- Projection of one daySchedules entry along timeProj. -/
def entryProj (p : String × List Section) : String × List TimeData :=
  (p.1, p.2.map timeProj)

/-- Witness fixture: a morning section of CMSC131 meeting MWF 9:00 to 9:50. -/
def wSec1 : Section :=
  { courseCode := "CMSC131", days := ["M", "W", "F"], startTime := some "9:00"
    endTime := some "9:50", professor := some ⟨some 4, some (7 / 2)⟩ }

/-- Witness fixture: an afternoon section of CMSC131 meeting MWF 14:00 to 14:50. -/
def wSec2 : Section :=
  { courseCode := "CMSC131", days := ["M", "W", "F"], startTime := some "14:00"
    endTime := some "14:50", professor := none }

/-- Witness fixture: a section of MATH140 meeting MWF 10:00 to 10:50. -/
def wSec3 : Section :=
  { courseCode := "MATH140", days := ["M", "W", "F"], startTime := some "10:00"
    endTime := some "10:50", professor := none }

/-- Witness fixture: a section with unparseable time strings. -/
def wBadSec : Section :=
  { courseCode := "HIST100", days := ["M"], startTime := some "banana"
    endTime := some "noon", professor := none }

/-- Witness fixture: a Monday section ending at 10:00. -/
def wTouchA : Section :=
  { courseCode := "AAAA100", days := ["M"], startTime := some "9:00"
    endTime := some "10:00", professor := none }

/-- Witness fixture: a Monday section starting at 10:00, touching wTouchA. -/
def wTouchB : Section :=
  { courseCode := "BBBB100", days := ["M"], startTime := some "10:00"
    endTime := some "11:00", professor := none }

/-- Witness fixture: a section whose professor has aggregatedScore 2. -/
def wProfLo : Section :=
  { courseCode := "CMSC131", days := ["M"], startTime := some "9:00"
    endTime := some "9:50", professor := some ⟨some 2, some 3⟩ }

/-- Witness fixture: wProfLo with the professor aggregatedScore raised to 4. -/
def wProfHi : Section :=
  { courseCode := "CMSC131", days := ["M"], startTime := some "9:00"
    endTime := some "9:50", professor := some ⟨some 4, some 3⟩ }

/-- Witness fixture: an empty preferences dict (every field absent). -/
def wPrefsNone : Preferences := ⟨none, none, none, none, none, none, none⟩

/-- Witness fixture: sections offered for course "A" only. -/
def wAvailA : String → List Section := fun c => if c = "A" then [wSec1, wSec2] else []

/-- Witness fixture: one section for CMSC131, nothing else. -/
def wAvailCC : String → List Section := fun c => if c = "CMSC131" then [wSec1] else []

theorem gc_cons (l : List Section) (rest : List (List Section)) :
    generateCombinations (l :: rest)
      = l.flatMap fun s => (generateCombinations rest).map fun r => s :: r := by
  cases rest with
  | nil =>
    simp only [generateCombinations]
    induction l with
    | nil => simp
    | cons a t ih => simp [List.flatMap_cons] at ih ⊢; exact ih
  | cons l2 rest2 => rfl

theorem length_generateCombinations (ls : List (List Section)) :
    (generateCombinations ls).length = (ls.map List.length).prod := by
  induction ls with
  | nil => simp [generateCombinations]
  | cons l rest ih =>
    rw [gc_cons, List.length_flatMap]
    simp [Function.comp_def, ih, List.map_const', List.sum_replicate, smul_eq_mul,
      Nat.mul_comm]

theorem mem_generateCombinations {ls : List (List Section)} {combo : List Section}
    (h : combo ∈ generateCombinations ls) :
    List.Forall₂ (fun l s => s ∈ l) ls combo := by
  induction ls generalizing combo with
  | nil =>
    simp [generateCombinations] at h
    subst h
    exact List.Forall₂.nil
  | cons l rest ih =>
    rw [gc_cons] at h
    simp only [List.mem_flatMap, List.mem_map] at h
    obtain ⟨s, hs, r, hr, rfl⟩ := h
    exact List.Forall₂.cons hs (ih hr)

theorem mem_insertDesc {x y : Schedule} {l : List Schedule} :
    y ∈ insertDesc x l ↔ y = x ∨ y ∈ l := by
  induction l with
  | nil => simp [insertDesc]
  | cons z zs ih =>
    simp only [insertDesc]
    split
    · simp
    · simp [ih]; tauto

theorem perm_insertDesc (x : Schedule) (l : List Schedule) :
    List.Perm (insertDesc x l) (x :: l) := by
  induction l with
  | nil => exact List.Perm.refl _
  | cons z zs ih =>
    simp only [insertDesc]
    split
    · exact List.Perm.refl _
    · exact (ih.cons z).trans (List.Perm.swap x z zs)

theorem perm_sortSchedulesDesc (l : List Schedule) :
    List.Perm (sortSchedulesDesc l) l := by
  induction l with
  | nil => exact List.Perm.refl _
  | cons x xs ih => exact (perm_insertDesc x (sortSchedulesDesc xs)).trans (ih.cons x)

theorem pairwise_insertDesc {x : Schedule} {l : List Schedule}
    (h : l.Pairwise (fun a b => b.score ≤ a.score)) :
    (insertDesc x l).Pairwise (fun a b => b.score ≤ a.score) := by
  induction l with
  | nil => simp [insertDesc]
  | cons y ys ih =>
    simp only [insertDesc]
    rw [List.pairwise_cons] at h
    split
    · rename_i hyx
      refine List.Pairwise.cons ?_ (List.Pairwise.cons h.1 h.2)
      intro z hz
      rcases List.mem_cons.mp hz with rfl | hz
      · exact hyx
      · exact le_trans (h.1 z hz) hyx
    · rename_i hyx
      push_neg at hyx
      refine List.Pairwise.cons ?_ (ih h.2)
      intro z hz
      rcases mem_insertDesc.mp hz with rfl | hz
      · exact le_of_lt hyx
      · exact h.1 z hz

theorem pairwise_sortSchedulesDesc (l : List Schedule) :
    (sortSchedulesDesc l).Pairwise (fun a b => b.score ≤ a.score) := by
  induction l with
  | nil => simp [sortSchedulesDesc]
  | cons x xs ih => exact pairwise_insertDesc ih

theorem filter_insertDesc (c : ℚ) (x : Schedule) (l : List Schedule) :
    (insertDesc x l).filter (fun y => decide (y.score = c))
      = if x.score = c then x :: l.filter (fun y => decide (y.score = c))
        else l.filter (fun y => decide (y.score = c)) := by
  induction l with
  | nil => by_cases hx : x.score = c <;> simp [insertDesc, List.filter_cons, hx]
  | cons y ys ih =>
    simp only [insertDesc]
    split
    · rename_i hyx
      by_cases hx : x.score = c <;> simp [List.filter_cons, hx]
    · rename_i hyx
      push_neg at hyx
      by_cases hy : y.score = c
      · have hx : ¬ x.score = c := fun hx => absurd (hx ▸ hy ▸ hyx) (lt_irrefl _)
        simp [List.filter_cons, hy, hx, ih]
      · by_cases hx : x.score = c <;> simp [List.filter_cons, hy, hx, ih]

theorem filter_sortSchedulesDesc (c : ℚ) (l : List Schedule) :
    (sortSchedulesDesc l).filter (fun y => decide (y.score = c))
      = l.filter (fun y => decide (y.score = c)) := by
  induction l with
  | nil => rfl
  | cons x xs ih =>
    show (insertDesc x (sortSchedulesDesc xs)).filter _ = _
    rw [filter_insertDesc, List.filter_cons]
    split <;> simp_all

theorem pySlice_eq_take (n : Int) (l : List α) : ∃ k, pySlice n l = l.take k := by
  unfold pySlice
  split
  · exact ⟨n.toNat, rfl⟩
  · exact ⟨((l.length : Int) + n).toNat, rfl⟩

theorem candidates_nil_of_empty {rc : List String} {av : String → List Section}
    (p : Preferences)
    (h : ¬ (rc.map av).all (fun l => !l.isEmpty) = true) :
    scheduleCandidates rc av p = [] := by
  have hex : ∃ l ∈ rc.map av, l.isEmpty := by
    by_contra hc
    push_neg at hc
    exact h (List.all_eq_true.mpr fun l hl => by
      simpa using (hc l hl))
  obtain ⟨l, hl, hle⟩ := hex
  have h0 : (generateCombinations (rc.map av)).length = 0 := by
    rw [length_generateCombinations]
    refine List.prod_eq_zero ?_
    have : l.length = 0 := by simpa [List.isEmpty_iff_length_eq_zero] using hle
    exact this ▸ List.mem_map_of_mem List.length hl
  have hgc : generateCombinations (rc.map av) = [] := List.length_eq_zero.mp h0
  simp [scheduleCandidates, hgc]

theorem generateSchedules_eq (rc : List String) (av : String → List Section)
    (p : Preferences) (n : Int) :
    generateSchedules rc av p n
      = pySlice n (sortSchedulesDesc (scheduleCandidates rc av p)) := by
  unfold generateSchedules
  dsimp only
  split
  · rfl
  · rename_i h
    rw [candidates_nil_of_empty p h]
    simp [pySlice, sortSchedulesDesc]

/-- C1: if any required course maps to an empty section list in
availableSections (a course absent from the dict also yields [] through
`.get(course, [])`), generateSchedules returns the empty list, whatever the
other courses offer: `if not all(sectionLists): return []` fires. -/
theorem infeasible_course_gives_empty_result
    (requiredCourses : List String) (availableSections : String → List Section)
    (preferences : Preferences) (maxSchedules : Int)
    (h : ∃ c ∈ requiredCourses, availableSections c = []) :
    generateSchedules requiredCourses availableSections preferences maxSchedules = [] := by
  obtain ⟨c, hc, hce⟩ := h
  have hall : ¬ ((requiredCourses.map availableSections).all
      (fun l => !l.isEmpty)) = true := by
    simp only [List.all_eq_true, not_forall]
    refine ⟨availableSections c, List.mem_map_of_mem availableSections hc, ?_⟩
    simp [hce]
  rw [generateSchedules_eq, candidates_nil_of_empty preferences hall]
  simp [pySlice, sortSchedulesDesc]

/-- Witness for C1: course "B" has no sections, so no schedule is produced
even though course "CMSC131" has one. -/
theorem infeasible_course_gives_empty_result_witness :
    generateSchedules ["CMSC131", "B"] wAvailCC wPrefsNone 5 = [] :=
  infeasible_course_gives_empty_result ["CMSC131", "B"] wAvailCC wPrefsNone 5
    ⟨"B", by decide, by decide⟩

/-- C2 (amended): generateSchedules returns the conflict-free candidates
sorted by score descending (a stable sort, hence a permutation), cut by the
Python slice `[:maxSchedules]`. For maxSchedules greater or equal 0 the result has
exactly min(maxSchedules, number of candidates) elements, so fewer candidates
than requested are all returned and maxSchedules = 0 returns the empty list;
but a NEGATIVE maxSchedules does not return the empty list: the slice drops
only the last |maxSchedules| candidates. -/
theorem ranker_top_n_by_score_desc
    (rc : List String) (av : String → List Section) (p : Preferences) (N : Int) :
    (generateSchedules rc av p N).Pairwise (fun a b => b.score ≤ a.score)
    ∧ generateSchedules rc av p N
        = pySlice N (sortSchedulesDesc (scheduleCandidates rc av p))
    ∧ List.Perm (sortSchedulesDesc (scheduleCandidates rc av p))
        (scheduleCandidates rc av p)
    ∧ (generateSchedules rc av p N).length
        = min (if 0 ≤ N then N.toNat
               else (((scheduleCandidates rc av p).length : Int) + N).toNat)
            (scheduleCandidates rc av p).length := by
  refine ⟨?_, generateSchedules_eq rc av p N, perm_sortSchedulesDesc _, ?_⟩
  · rw [generateSchedules_eq]
    obtain ⟨k, hk⟩ := pySlice_eq_take N (sortSchedulesDesc (scheduleCandidates rc av p))
    rw [hk]
    exact (pairwise_sortSchedulesDesc _).sublist (List.take_sublist _ _)
  · rw [generateSchedules_eq]
    have hlen : (sortSchedulesDesc (scheduleCandidates rc av p)).length
        = (scheduleCandidates rc av p).length :=
      (perm_sortSchedulesDesc _).length_eq
    unfold pySlice
    split <;> simp [List.length_take, hlen]

/-- Counterexample to C2 as stated: maxSchedules = -1 is not positive, yet
the result is NOT the empty sequence. Course "A" has two sections, giving
two valid candidates, and the Python slice `[:-1]` keeps the first one. -/
theorem ranker_negative_max_not_empty :
    ((-1 : Int) ≤ 0)
    ∧ generateSchedules ["A"] wAvailA wPrefsNone (-1) ≠ [] := by
  constructor
  · decide
  · with_unfolding_all decide

/-- C5: the combination generator yields the full Cartesian product: its
size is the product of the per-course section-list sizes (the hypothesis
that every list is nonempty is the regime the claim describes; the count
holds for the code's recursion). -/
theorem combination_count_is_product
    (ls : List (List Section)) (_hne : ∀ l ∈ ls, l ≠ []) :
    (generateCombinations ls).length = (ls.map List.length).prod :=
  length_generateCombinations ls

/-- Witness for C5: two sections for the first course and one for the
second give exactly 2 = 2 * 1 combinations. -/
theorem combination_count_is_product_witness :
    (generateCombinations [[wSec1, wSec2], [wSec3]]).length
      = ([[wSec1, wSec2], [wSec3]].map List.length).prod :=
  combination_count_is_product [[wSec1, wSec2], [wSec3]] (by decide)

/-- C9: under the data-provider invariants (each stored section carries the
course code it is filed under, every required course has sections), every
returned schedule pairs the required courses, in order, with a section
drawn from that course's list and carrying that course code: the sections
list and the course list are pointwise related (hence equal in length). -/
theorem schedule_sections_match_required_courses
    (rc : List String) (av : String → List Section) (p : Preferences) (N : Int)
    (hcc : ∀ c : String, ∀ sec ∈ av c, sec.courseCode = c)
    (_hne : ∀ c ∈ rc, av c ≠ []) :
    ∀ sched ∈ generateSchedules rc av p N,
      List.Forall₂ (fun c sec => sec ∈ av c ∧ sec.courseCode = c) rc sched.sections := by
  intro sched hm
  rw [generateSchedules_eq] at hm
  obtain ⟨k, hk⟩ := pySlice_eq_take N (sortSchedulesDesc (scheduleCandidates rc av p))
  rw [hk] at hm
  have hm2 : sched ∈ sortSchedulesDesc (scheduleCandidates rc av p) :=
    List.take_subset _ _ hm
  have hm3 : sched ∈ scheduleCandidates rc av p :=
    (perm_sortSchedulesDesc _).subset hm2
  unfold scheduleCandidates at hm3
  simp only [List.mem_map, List.mem_filter] at hm3
  obtain ⟨combo, ⟨hcombo, _⟩, rfl⟩ := hm3
  have hf : List.Forall₂ (fun l sec => sec ∈ l) (rc.map av) combo :=
    mem_generateCombinations hcombo
  have hf2 : List.Forall₂ (fun c sec => sec ∈ av c) rc combo :=
    List.forall₂_map_left_iff.mp hf
  exact hf2.imp fun {c sec} hmem => ⟨hmem, hcc c sec hmem⟩

/-- Witness for C9: the single returned schedule for ["CMSC131"] pairs
CMSC131 with its stored section wSec1. -/
theorem schedule_sections_match_required_courses_witness :
    List.Forall₂ (fun c sec => sec ∈ wAvailCC c ∧ sec.courseCode = c)
      ["CMSC131"] [wSec1] :=
  schedule_sections_match_required_courses ["CMSC131"] wAvailCC wPrefsNone 5
    (by
      intro c sec hs
      by_cases hc : c = "CMSC131" <;> simp [wAvailCC, hc] at hs
      simp [hs, hc, wSec1])
    (by intro c hc; simp at hc; simp [hc, wAvailCC, wSec1])
    { sections := [wSec1], score := calculateScheduleScore [wSec1] wPrefsNone }
    (by with_unfolding_all decide)

/-- C10: the ranking sort is stable, so among returned schedules with a
common score the output preserves generation order: for every score value,
the returned schedules with that score form a prefix of the conflict-free
candidates with that score listed in generation order. Generation order is
lexicographic with the first course varying slowest: the generator
prepends each first-course section to every combination of the rest, in
order (second conjunct). Equal scores never raise: every stage is total. -/
theorem equal_scores_keep_generation_order
    (rc : List String) (av : String → List Section) (p : Preferences) (N : Int)
    (c : ℚ) (l : List Section) (ls : List (List Section)) :
    (∃ t, (scheduleCandidates rc av p).filter (fun x => decide (x.score = c))
        = (generateSchedules rc av p N).filter (fun x => decide (x.score = c)) ++ t)
    ∧ generateCombinations (l :: ls)
        = l.flatMap fun s => (generateCombinations ls).map fun r => s :: r := by
  refine ⟨?_, gc_cons l ls⟩
  rw [generateSchedules_eq]
  obtain ⟨k, hk⟩ := pySlice_eq_take N (sortSchedulesDesc (scheduleCandidates rc av p))
  rw [hk]
  refine ⟨(((sortSchedulesDesc (scheduleCandidates rc av p)).drop k).filter
    (fun x => decide (x.score = c))), ?_⟩
  rw [← List.filter_append, List.take_append_drop, filter_sortSchedulesDesc]

/-- C3 (amended): with no required courses the generator yields exactly one
empty candidate, which passes the conflict filter, and scoring it raises no
exception; the per-candidate time and gap terms are 0 — but the two
mean-over-sections computations return the documented default 3.0 on an
empty list rather than 0, so the professor-rating term contributes
3.0 * 20 = 60 whenever prioritizeProfessorRating is enabled (its default)
and the GPA term 3.0 * 15 = 45 whenever prioritizeEasyGPA is enabled. -/
theorem empty_input_single_candidate_score
    (av : String → List Section) (prefs : Preferences) :
    generateCombinations [] = [[]]
    ∧ scheduleCandidates [] av prefs
        = [{ sections := [], score := calculateScheduleScore [] prefs }]
    ∧ calculateAverageProfessorRating [] = 3
    ∧ calculateAverageGPA [] = 3
    ∧ calculateTimePreferenceScore [] prefs = 0
    ∧ calculateBackToBackPenalty [] = 0
    ∧ calculateGapScore [] = 0
    ∧ calculateScheduleScore [] prefs
        = (if prefs.prioritizeProfessorRating.getD true then 60 else 0)
          + (if prefs.prioritizeEasyGPA.getD false then 45 else 0)
          + (if (prefs.preferredDays.getD []).isEmpty then 10 else 0) := by
  refine ⟨rfl, rfl, rfl, rfl, rfl, rfl, rfl, ?_⟩
  unfold calculateScheduleScore calculateAverageProfessorRating calculateAverageGPA
    calculateTimePreferenceScore calculateDayPreferenceScore
    calculateBackToBackPenalty calculateGapScore groupByDay
  split_ifs <;> simp_all <;> norm_num

/-- Counterexample to C3 as stated: with an empty preferences dict the
single empty candidate is scored 70, not the 10 that all-zero rating, GPA
and gap contributions would give alongside the neutral day term: the
professor-rating mean on an empty candidate is the default 3.0 and, with
prioritizeProfessorRating defaulting to true, contributes 60. -/
theorem empty_candidate_score_not_zero_contributions :
    calculateAverageProfessorRating [] = 3
    ∧ calculateScheduleScore [] wPrefsNone = 70
    ∧ (70 : ℚ) ≠ 0 + 0 + 10 := by
  refine ⟨by with_unfolding_all rfl, by with_unfolding_all rfl, by norm_num⟩

/-- C4: for sections whose four time fields parse, the conflict test is
exactly: the day sets intersect AND the half-open intervals overlap
(start1 < end2 and start2 < end1). Touching endpoints make the overlap
condition false, and disjoint day sets make the left conjunct false, so
neither is reported as a conflict. -/
theorem conflict_iff_shared_day_and_overlap (s1 s2 : Section)
    (a1 b1 a2 b2 : Nat)
    (h1 : parseTime s1.startTime = some a1) (h2 : parseTime s1.endTime = some b1)
    (h3 : parseTime s2.startTime = some a2) (h4 : parseTime s2.endTime = some b2) :
    (hasTimeConflict s1 s2 = true
      ↔ (daysIntersect s1 s2 = true ∧ (a1 < b2 ∧ a2 < b1))) := by
  unfold hasTimeConflict
  rw [h1, h2, h3, h4]
  by_cases hd : daysIntersect s1 s2
  · simp only [hd]
    simp
    omega
  · simp [hd]

/-- Witness for C4, the touching-boundary case: wTouchA ends 10:00 exactly
when wTouchB starts on a shared Monday; the right side is false because
600 < 600 fails, so they are not in conflict. -/
theorem conflict_iff_shared_day_and_overlap_witness :
    (hasTimeConflict wTouchA wTouchB = true
      ↔ (daysIntersect wTouchA wTouchB = true ∧ (540 < 660 ∧ 600 < 600))) :=
  conflict_iff_shared_day_and_overlap wTouchA wTouchB 540 600 600 660
    (by decide) (by decide) (by decide) (by decide)

/-- C6: a section whose start or end time is missing or unparseable is
never in conflict with any other section, in either argument order: the
`if not all([...])` guard returns False. Both the parser (whose broad
except is modelled by its total Option result) and the conflict check are
total functions, so no input raises. -/
theorem malformed_time_never_conflicts (s1 s2 : Section)
    (h : parseTime s1.startTime = none ∨ parseTime s1.endTime = none) :
    hasTimeConflict s1 s2 = false ∧ hasTimeConflict s2 s1 = false := by
  constructor <;>
  · unfold hasTimeConflict
    rcases h with h | h <;>
      cases hA : parseTime s1.startTime <;> cases hB : parseTime s1.endTime <;>
      cases hC : parseTime s2.startTime <;> cases hD : parseTime s2.endTime <;>
      simp_all

/-- Witness for C6: wBadSec has startTime "banana", which fails both
strptime formats, so it conflicts with nothing even though it shares
Monday 9:00 to 10:00 with wTouchA. -/
theorem malformed_time_never_conflicts_witness :
    hasTimeConflict wBadSec wTouchA = false ∧ hasTimeConflict wTouchA wBadSec = false :=
  malformed_time_never_conflicts wBadSec wTouchA (Or.inl (by decide))

/-- C8: when preferredDays is absent or empty the day-preference sub-score
is the neutral 1.0 for every candidate, so any two candidates (in
particular two differing only in their sections' meeting days) receive
identical day-preference sub-scores. -/
theorem neutral_day_preference (prefs : Preferences)
    (sections sections' : List Section)
    (h : prefs.preferredDays = none ∨ prefs.preferredDays = some []) :
    calculateDayPreferenceScore sections prefs = 1
    ∧ calculateDayPreferenceScore sections' prefs
        = calculateDayPreferenceScore sections prefs := by
  rcases h with h | h <;> simp [calculateDayPreferenceScore, h]

/-- Witness for C8: with the empty preferences dict, a Monday-only and a
Wednesday-only candidate both get day sub-score 1.0. -/
theorem neutral_day_preference_witness :
    calculateDayPreferenceScore [wTouchA] wPrefsNone = 1
    ∧ calculateDayPreferenceScore [wSec2] wPrefsNone
        = calculateDayPreferenceScore [wTouchA] wPrefsNone :=
  neutral_day_preference wPrefsNone [wTouchA] [wSec2] (Or.inl rfl)

theorem addToDay_proj (m : List (String × List Section)) (d : String) (s : Section) :
    (addToDay m d s).map entryProj = addToDayT (m.map entryProj) d (timeProj s) := by
  induction m with
  | nil => rfl
  | cons e rest ih =>
    obtain ⟨d', l⟩ := e
    simp only [addToDay, addToDayT, entryProj, List.map_cons]
    by_cases hd : d' = d <;> simp [hd, ih, entryProj]

theorem foldDays_proj (days : List String) (m : List (String × List Section)) (s : Section) :
    ((days.foldl (fun m2 d => addToDay m2 d s) m).map entryProj)
      = days.foldl (fun m2 d => addToDayT m2 d (timeProj s)) (m.map entryProj) := by
  induction days generalizing m with
  | nil => rfl
  | cons d ds ih =>
    simp only [List.foldl_cons]
    rw [ih, addToDay_proj]

theorem groupByDay_proj (l : List Section) :
    (groupByDay l).map entryProj = groupByDayT (l.map timeProj) := by
  unfold groupByDay groupByDayT
  suffices h : ∀ m : List (String × List Section),
      ((l.foldl (fun m s => s.days.foldl (fun m2 d => addToDay m2 d s) m) m).map entryProj)
        = (l.map timeProj).foldl
            (fun m s => s.days.foldl (fun m2 d => addToDayT m2 d s) m)
            (m.map entryProj) by
    simpa using h []
  induction l with
  | nil => intro m; rfl
  | cons s rest ih =>
    intro m
    simp only [List.foldl_cons, List.map_cons]
    rw [ih, foldDays_proj]
    rfl

theorem insertByStart_proj (x : Section) (l : List Section) :
    (insertByStart x l).map timeProj = insertByStartT (timeProj x) (l.map timeProj) := by
  induction l with
  | nil => rfl
  | cons y ys ih =>
    simp only [insertByStart, insertByStartT, List.map_cons]
    by_cases h : startKey x ≤ startKey y
    · rw [if_pos h, if_pos (show startKeyT (timeProj x) ≤ startKeyT (timeProj y) from h)]
      rfl
    · rw [if_neg h, if_neg (show ¬ startKeyT (timeProj x) ≤ startKeyT (timeProj y) from h)]
      simp [ih]

theorem sortByStart_proj (l : List Section) :
    (sortByStart l).map timeProj = sortByStartT (l.map timeProj) := by
  induction l with
  | nil => rfl
  | cons x xs ih =>
    show (insertByStart x (sortByStart xs)).map timeProj = _
    rw [insertByStart_proj, ih]
    rfl

theorem pairSum_proj (f : TimeData → TimeData → ℚ) (l : List Section) :
    pairSum (fun a b => f (timeProj a) (timeProj b)) l = pairSum f (l.map timeProj) := by
  unfold pairSum
  refine congrArg List.sum ?_
  rw [← List.map_tail, List.zip_map, List.map_map]
  refine List.map_congr_left ?_
  intro p _
  obtain ⟨a, b⟩ := p
  rfl

theorem backToBack_proj (l : List Section) :
    calculateBackToBackPenalty l = calculateBackToBackPenaltyT (l.map timeProj) := by
  unfold calculateBackToBackPenalty calculateBackToBackPenaltyT
  rw [← groupByDay_proj, List.map_map]
  refine congrArg List.sum (List.map_congr_left ?_)
  intro g _
  show pairSum b2bPairContrib (sortByStart g.2)
      = pairSum b2bPairContribT (sortByStartT (g.2.map timeProj))
  rw [← sortByStart_proj, ← pairSum_proj]
  rfl

theorem gapScore_proj (l : List Section) :
    calculateGapScore l = calculateGapScoreT (l.map timeProj) := by
  unfold calculateGapScore calculateGapScoreT
  rw [← groupByDay_proj, List.map_map]
  refine congrArg List.sum (List.map_congr_left ?_)
  intro g _
  show pairSum gapPairContrib (sortByStart g.2)
      = pairSum gapPairContribT (sortByStartT (g.2.map timeProj))
  rw [← sortByStart_proj, ← pairSum_proj]
  rfl

theorem avgRating_append (l1 l2 : List Section) (s : Section) :
    calculateAverageProfessorRating (l1 ++ s :: l2)
      = ((l1.map profRating).sum + profRating s + (l2.map profRating).sum)
        / ((l1.length : ℚ) + l2.length + 1) := by
  unfold calculateAverageProfessorRating
  rw [if_neg (by simp [List.isEmpty_iff])]
  rw [List.map_append, List.sum_append, List.map_cons, List.sum_cons,
    List.length_append, List.length_cons]
  push_cast
  ring

/-- C7: raising one section's professor aggregatedScore, all other fields
held equal, strictly raises the schedule score when
prioritizeProfessorRating is enabled (its default) and leaves the score
unchanged when it is disabled: only the professor-rating term reads the
aggregatedScore, and the mean over a fixed positive number of sections is
strictly monotone in each entry. -/
theorem professor_rating_monotone
    (prefs : Preferences) (l1 l2 : List Section) (s s' : Section) (p : Professor)
    (r r' : ℚ)
    (hp : s.professor = some p) (hr : p.aggregatedScore = some r)
    (hs' : s' = { s with professor := some { p with aggregatedScore := some r' } })
    (hlt : r < r') :
    if prefs.prioritizeProfessorRating.getD true then
      calculateScheduleScore (l1 ++ s :: l2) prefs
        < calculateScheduleScore (l1 ++ s' :: l2) prefs
    else
      calculateScheduleScore (l1 ++ s' :: l2) prefs
        = calculateScheduleScore (l1 ++ s :: l2) prefs := by
  subst hs'
  have hgs : profGPA { s with professor := some { p with aggregatedScore := some r' } }
      = profGPA s := by
    simp [profGPA, hp]
  have hGPA : calculateAverageGPA
        (l1 ++ { s with professor := some { p with aggregatedScore := some r' } } :: l2)
      = calculateAverageGPA (l1 ++ s :: l2) := by
    simp [calculateAverageGPA, hgs]
  have hTime : calculateTimePreferenceScore
        (l1 ++ { s with professor := some { p with aggregatedScore := some r' } } :: l2) prefs
      = calculateTimePreferenceScore (l1 ++ s :: l2) prefs := by
    have ht : timeContrib prefs { s with professor := some { p with aggregatedScore := some r' } }
        = timeContrib prefs s := rfl
    simp [calculateTimePreferenceScore, ht]
  have hDay : calculateDayPreferenceScore
        (l1 ++ { s with professor := some { p with aggregatedScore := some r' } } :: l2) prefs
      = calculateDayPreferenceScore (l1 ++ s :: l2) prefs := by
    have hd : dayContrib (prefs.preferredDays.getD [])
          { s with professor := some { p with aggregatedScore := some r' } }
        = dayContrib (prefs.preferredDays.getD []) s := rfl
    simp [calculateDayPreferenceScore, hd]
  have hMap : (l1 ++ { s with professor := some { p with aggregatedScore := some r' } } :: l2).map timeProj
      = (l1 ++ s :: l2).map timeProj := by
    have ht : timeProj { s with professor := some { p with aggregatedScore := some r' } }
        = timeProj s := rfl
    simp [ht]
  have hB2B : calculateBackToBackPenalty
        (l1 ++ { s with professor := some { p with aggregatedScore := some r' } } :: l2)
      = calculateBackToBackPenalty (l1 ++ s :: l2) := by
    rw [backToBack_proj, backToBack_proj, hMap]
  have hGap : calculateGapScore
        (l1 ++ { s with professor := some { p with aggregatedScore := some r' } } :: l2)
      = calculateGapScore (l1 ++ s :: l2) := by
    rw [gapScore_proj, gapScore_proj, hMap]
  have hAvg : calculateAverageProfessorRating (l1 ++ s :: l2)
      < calculateAverageProfessorRating
        (l1 ++ { s with professor := some { p with aggregatedScore := some r' } } :: l2) := by
    have hrs : profRating s = r := by simp [profRating, hp, hr]
    have hrs' : profRating { s with professor := some { p with aggregatedScore := some r' } }
        = r' := rfl
    rw [avgRating_append, avgRating_append, hrs, hrs']
    have hn : (0 : ℚ) < (l1.length : ℚ) + l2.length + 1 := by positivity
    rw [div_lt_div_iff_of_pos_right hn]
    linarith
  unfold calculateScheduleScore
  rw [hGPA, hTime, hDay, hB2B, hGap]
  cases hflag : prefs.prioritizeProfessorRating.getD true
  · simp only [Bool.false_eq_true, if_false]
  · simp only [if_true]
    nlinarith [hAvg]

/-- Witness for C7: raising the professor score from 2 to 4 on the only
section strictly raises the schedule score under the default preferences
(prioritizeProfessorRating defaults to true). -/
theorem professor_rating_monotone_witness :
    calculateScheduleScore [wProfLo] wPrefsNone
      < calculateScheduleScore [wProfHi] wPrefsNone := by
  have h := professor_rating_monotone wPrefsNone [] [] wProfLo wProfHi
    ⟨some 2, some 3⟩ 2 4 rfl rfl rfl (by norm_num)
  simpa using h
